import Mathlib

/-!
Verification of the beanbag-eslint-plugin rule-preset registry.

This file gives a shallow embedding of the declarative configuration data
exported by `src/index.ts` of the `@beanbag/eslint-plugin` package: the rule
configurations (`es5Config`, `es6Config`, `typescriptConfig`,
`jasmineTestsConfig`, and the `recommended` configuration inside the `configs`
export), and the `environments` export.  Rule option payloads are free-form
nested JSON-like data, so they are embedded by a small `Json` type; every
configuration literal below is a direct transcription of the corresponding
object literal in the source.

The registry lookup operations (`getConfiguration` / `getEnvironment`) are
part of the package contract described in the specification rather than code
in `src/index.ts` (the source simply exports the two mappings); they are
modelled from the spec where noted.
-/

/-- Free-form nested option data: strings, numbers, booleans, arrays and
objects, exactly the shapes appearing in the source's option literals. -/
inductive Json where
  | str : String → Json
  | num : Int → Json
  | bool : Bool → Json
  | arr : List Json → Json
  | obj : List (String × Json) → Json

/-- An override record of a configuration: a list of file glob patterns
(`files` in the source), the configuration names pulled in for matching files
(`extends` in the source, named `extendsList` here because `extends` is a Lean
keyword), and optional parser options. -/
structure OverrideRecord where
  files : List String
  extendsList : List String
  parserOptions : List (String × Json) := []

/-- A configuration record, mirroring the object literals in the source.
Fields absent from a given source literal default to empty.  `extends` is
named `extendsList` and `parser` is named `parserName` for Lean reasons; rule
settings are kept as raw `Json` values (a bare severity string, or an array of
severity followed by options), exactly as written in the source. -/
structure ConfigRecord where
  extendsList : List String := []
  plugins : List String := []
  parserName : Option String := none
  env : List (String × Bool) := []
  parserOptions : List (String × Json) := []
  globals : List (String × Json) := []
  rules : List (String × Json) := []
  overrides : List OverrideRecord := []

/-- The string regex pattern used for `case` fall-through markers in `switch`
(src/index.ts line 20). -/
def noFallThroughPattern : String := "[Ff]alls?\\s?through"

/-- The ES5 configuration (src/index.ts lines 30-935), transcribed rule by
rule with full option payloads. -/
def es5Config : ConfigRecord where
  extendsList := ["eslint:recommended"]
  rules := [
    ("arrow-spacing", .arr [.str "error",
      .obj [("after", .bool true), ("before", .bool true)]]),
    ("brace-style", .arr [.str "error", .str "1tbs",
      .obj [("allowSingleLine", .bool true)]]),
    ("comma-dangle", .arr [.str "error", .str "never"]),
    ("comma-spacing", .arr [.str "error",
      .obj [("after", .bool true), ("before", .bool false)]]),
    ("comma-style", .arr [.str "error", .str "last"]),
    ("curly", .arr [.str "error", .str "all"]),
    ("default-case", .str "error"),
    ("default-case-last", .str "error"),
    ("eqeqeq", .arr [.str "error", .str "always"]),
    ("func-call-spacing", .arr [.str "error", .str "never"]),
    ("indent", .arr [.str "error", .num 4,
      .obj [
        ("ArrayExpression", .str "first"),
        ("CallExpression", .obj [("arguments", .str "first")]),
        ("FunctionDeclaration",
          .obj [("body", .num 1), ("parameters", .str "first")]),
        ("FunctionExpression",
          .obj [("body", .num 1), ("parameters", .str "first")]),
        ("ImportDeclaration", .num 1),
        ("MemberExpression", .str "off"),
        ("ObjectExpression", .str "first"),
        ("SwitchCase", .num 1),
        ("ignoredNodes", .arr [.str "ConditionalExpression"]),
        ("outerIIFEBody", .num 0)]]),
    ("linebreak-style", .arr [.str "error", .str "unix"]),
    ("lines-around-comment", .arr [.str "warn",
      .obj [
        ("beforeBlockComment", .bool true),
        ("beforeLineComment", .bool true),
        ("allowArrayEnd", .bool true),
        ("allowArrayStart", .bool true),
        ("allowBlockEnd", .bool true),
        ("allowBlockStart", .bool true),
        ("allowClassEnd", .bool true),
        ("allowClassStart", .bool true),
        ("allowObjectEnd", .bool true),
        ("allowObjectStart", .bool true),
        ("ignorePattern", .str noFallThroughPattern)]]),
    ("max-len", .arr [.str "error",
      .obj [
        ("code", .num 79),
        ("ignorePattern", .str "gettext\\(.*"),
        ("ignoreUrls", .bool true)]]),
    ("no-confusing-arrow", .arr [.str "error",
      .obj [("allowParens", .bool true)]]),
    ("no-fallthrough", .arr [.str "error",
      .obj [
        ("allowEmptyCase", .bool true),
        ("commentPattern", .str noFallThroughPattern)]]),
    ("no-mixed-spaces-and-tabs", .str "error"),
    ("no-multi-spaces", .arr [.str "warn",
      .obj [("ignoreEOLComments", .bool true)]]),
    ("no-multiple-empty-lines", .arr [.str "error",
      .obj [("max", .num 2), ("maxBOF", .num 1), ("maxEOF", .num 0)]]),
    ("no-prototype-builtins", .str "off"),
    ("no-tabs", .str "error"),
    ("no-trailing-spaces", .str "error"),
    ("no-unused-vars", .arr [.str "error",
      .obj [("args", .str "none"), ("vars", .str "local")]]),
    ("padding-line-between-statements", .arr [.str "error",
      .obj [
        ("blankLine", .str "always"),
        ("next", .arr [.str "block-like", .str "class", .str "function"]),
        ("prev", .str "*")],
      .obj [
        ("blankLine", .str "always"),
        ("next", .str "*"),
        ("prev", .arr [.str "block-like", .str "class", .str "function"])],
      .obj [
        ("blankLine", .str "any"),
        ("next", .arr [.str "const", .str "let", .str "var"]),
        ("prev", .str "*")],
      .obj [
        ("blankLine", .str "always"),
        ("next", .str "*"),
        ("prev", .arr [.str "case", .str "default"])],
      .obj [
        ("blankLine", .str "always"),
        ("next", .str "return"),
        ("prev", .str "*")]]),
    ("quotes", .arr [.str "error", .str "single",
      .obj [("avoidEscape", .bool true)]]),
    ("semi", .arr [.str "error", .str "always"]),
    ("sort-keys", .arr [.str "warn", .str "asc",
      .obj [("allowLineSeparatedGroups", .bool true)]]),
    ("space-in-parens", .arr [.str "error", .str "never"]),
    ("spaced-comment", .arr [.str "error", .str "always",
      .obj [
        ("block", .obj [("markers", .arr [.str "*", .str "!"])]),
        ("exceptions", .arr [.str "*", .str "-"])]]),
    ("yoda", .arr [.str "error", .str "never"])]

/-- The ES6 configuration (src/index.ts lines 948-1050). -/
def es6Config : ConfigRecord where
  env := [("es2021", true)]
  parserOptions := [("ecmaVersion", .str "latest")]
  globals := [("dedent", .str "readonly")]
  rules := [
    ("comma-dangle", .arr [.str "error",
      .obj [
        ("arrays", .str "always-multiline"),
        ("exports", .str "always-multiline"),
        ("functions", .str "only-multiline"),
        ("imports", .str "always-multiline"),
        ("objects", .str "always-multiline")]]),
    ("no-var", .str "error"),
    ("prefer-const", .str "warn"),
    ("quotes", .arr [.str "error", .str "single",
      .obj [
        ("allowTemplateLiterals", .bool true),
        ("avoidEscape", .bool true)]])]

/-- The TypeScript configuration (src/index.ts lines 1062-1154). -/
def typescriptConfig : ConfigRecord where
  extendsList := ["plugin:@beanbag/es6", "plugin:@typescript-eslint/recommended"]
  parserName := some "@typescript-eslint/parser"
  plugins := ["@typescript-eslint"]
  rules := [
    ("@typescript-eslint/no-this-alias", .str "warn"),
    ("@typescript-eslint/lines-around-comment", .arr [.str "warn",
      .obj [
        ("beforeBlockComment", .bool true),
        ("beforeLineComment", .bool true),
        ("allowArrayEnd", .bool true),
        ("allowArrayStart", .bool true),
        ("allowBlockEnd", .bool true),
        ("allowBlockStart", .bool true),
        ("allowClassEnd", .bool true),
        ("allowClassStart", .bool true),
        ("allowEnumEnd", .bool true),
        ("allowEnumStart", .bool true),
        ("allowInterfaceEnd", .bool true),
        ("allowInterfaceStart", .bool true),
        ("allowModuleEnd", .bool true),
        ("allowModuleStart", .bool true),
        ("allowObjectEnd", .bool true),
        ("allowObjectStart", .bool true),
        ("allowTypeEnd", .bool true),
        ("allowTypeStart", .bool true),
        ("ignorePattern", .str noFallThroughPattern)]]),
    ("lines-around-comment", .str "off")]

/-- The Jasmine tests configuration (src/index.ts lines 1165-1250). -/
def jasmineTestsConfig : ConfigRecord where
  env := [("@beanbag/jasmine-suites", true), ("jasmine", true)]
  extendsList := ["plugin:jasmine/recommended"]
  plugins := ["jasmine"]
  globals := [("$testsScratch", .str "writable")]
  rules := [
    ("jasmine/new-line-before-expect", .str "off"),
    ("jasmine/no-expect-in-setup-teardown", .str "off"),
    ("jasmine/no-global-setup", .str "off"),
    ("jasmine/no-spec-dupes", .arr [.str "error", .str "branch"]),
    ("jasmine/no-suite-dupes", .arr [.str "warn", .str "branch"]),
    ("jasmine/prefer-toHaveBeenCalledWith", .str "off")]

/-- The recommended configuration, written inline inside the `configs` export
in the source (src/index.ts lines 1263-1317). -/
def recommendedConfig : ConfigRecord where
  extendsList := ["plugin:@beanbag/es5"]
  plugins := ["@beanbag"]
  overrides := [
    ⟨["*.es6.js"], ["plugin:@beanbag/es6"], []⟩,
    ⟨["*.ts"], ["plugin:@beanbag/typescript"], []⟩,
    ⟨["*Tests.es6.js", "*Tests.js", "*Tests.ts"], ["plugin:@beanbag/jasmine"], []⟩,
    ⟨["rollup.config.js", ".babelrc"], ["plugin:@beanbag/es6"],
      [("sourceType", .str "module")]⟩]

/-- The `configs` export (src/index.ts lines 1253-1318): the registry of
configuration records keyed by name, in source order. -/
def configsList : List (String × ConfigRecord) :=
  [("es5", es5Config),
   ("es6", es6Config),
   ("typescript", typescriptConfig),
   ("jasmine", jasmineTestsConfig),
   ("recommended", recommendedConfig)]

/-- The `environments` export (src/index.ts lines 1321-1354).  Each record is
kept as the raw list of key/value entries of the source object literal: note
that `djblets` and `reviewboard` place their global directly on the record,
with no `globals` key, unlike the other three environments. -/
def environments : List (String × List (String × Json)) :=
  [("backbone",
    [("globals", .obj [("Backbone", .bool false), ("_", .bool false)])]),
   ("django",
    [("globals", .obj [
      ("django", .bool false),
      ("gettext", .bool false),
      ("gettext_noop", .bool false),
      ("interpolate", .bool false),
      ("ngettext", .bool false),
      ("npgettext", .bool false),
      ("pgettext", .bool false)])]),
   ("djblets", [("Djblets", .bool false)]),
   ("jasmine-suites", [("globals", .obj [("suite", .bool false)])]),
   ("reviewboard", [("RB", .bool false)])]

/-- The set of registered configuration names. -/
def listConfigurations : List String := configsList.map Prod.fst

/-- The set of registered environment names. -/
def listEnvironments : List String := environments.map Prod.fst

/-- The only error kind of the registry: a requested configuration or
environment name that is not present. -/
inductive NotFoundError where
  | unknownName : NotFoundError
deriving DecidableEq

/-- Modelled from the spec: `getConfiguration(name) -> ConfigurationRecord`,
failing with `NotFoundError` if the name is unregistered.  The source exports
`configs` as a plain mapping and leaves the lookup to the host linter, so the
lookup operation itself is taken from the specification, as direct lookup over
the exported registry. -/
def getConfiguration (name : String) : Except NotFoundError ConfigRecord :=
  match configsList.find? (fun p => p.1 == name) with
  | some p => Except.ok p.2
  | none => Except.error NotFoundError.unknownName

/-- Modelled from the spec: `getEnvironment(name) -> EnvironmentRecord`,
failing with `NotFoundError` if the name is unregistered; direct lookup over
the exported `environments` mapping. -/
def getEnvironment (name : String) :
    Except NotFoundError (List (String × Json)) :=
  match environments.find? (fun p => p.1 == name) with
  | some p => Except.ok p.2
  | none => Except.error NotFoundError.unknownName

/-- The globals mapping of an environment record: the entries of the object
stored under its `globals` key, if any. -/
def envGlobals (record : List (String × Json)) :
    Option (List (String × Json)) :=
  match record.lookup "globals" with
  | some (Json.obj entries) => some entries
  | _ => none

/-- Every permission-tag value carried by an environment record: the values of
its `globals` object where one is present, together with any value attached
directly to a top-level key (the shape `djblets` and `reviewboard` use). -/
def permValues : List (String × Json) → List Json
  | [] => []
  | (_, Json.obj entries) :: rest => entries.map Prod.snd ++ permValues rest
  | (_, v) :: rest => v :: permValues rest

/-- Whether a global permission tag marks the global read-only: the source
uses the boolean `false` in environments and the string `readonly` in the ES6
configuration globals. -/
def isReadOnly : Json → Bool
  | Json.bool b => !b
  | Json.str s => s == "readonly"
  | _ => false

/-- Whether a global permission tag marks the global writable: the boolean
`true`, or the string `writable` as used for `$testsScratch`. -/
def isWritable : Json → Bool
  | Json.bool b => b
  | Json.str s => s == "writable"
  | _ => false

/-- The severity component of a rule setting: the bare value when the setting
is a plain severity string, or the first element when the setting is an array
of severity plus options. -/
def ruleSeverity : Json → Option String
  | Json.str s => some s
  | Json.arr (Json.str s :: _) => some s
  | _ => none

/-- The severity registered for a rule identifier in a configuration. -/
def configRuleSeverity (cfg : ConfigRecord) (rule : String) : Option String :=
  match cfg.rules.lookup rule with
  | some setting => ruleSeverity setting
  | none => none

/-- Whether a looked-up severity enables its rule (anything except `off`). -/
def severityActive : Option String → Bool
  | some s => s != "off"
  | none => false

/-- The option list of a rule setting (everything after the severity). -/
def ruleOptions : Json → List Json
  | Json.arr (_ :: opts) => opts
  | _ => []

/-- The entries of the first object among a rule setting's options, or empty
when there is none. -/
def firstObjOption (setting : Json) : List (String × Json) :=
  match ruleOptions setting with
  | Json.obj entries :: _ => entries
  | _ => []

/-- The string stored under `key` in the first object option of rule `rule`
of configuration `cfg`. -/
def ruleOptionStr (cfg : ConfigRecord) (rule key : String) : Option String :=
  match cfg.rules.lookup rule with
  | some setting =>
    match (firstObjOption setting).lookup key with
    | some (Json.str s) => some s
    | _ => none
  | none => none

/-- Merging an overriding rule map over a base rule map, as the host linter's
extension mechanism does: the overriding entries win, and base entries whose
identifier is not redeclared survive unchanged. -/
def mergeRules {β : Type} (base over : List (String × β)) :
    List (String × β) :=
  over ++ base.filter (fun p => (over.lookup p.1).isNone)

/-- The severity a rule ends up with after merging `over` onto `base`. -/
def mergedRuleSeverity (base over : List (String × Json)) (rule : String) :
    Option String :=
  match (mergeRules base over).lookup rule with
  | some setting => ruleSeverity setting
  | none => none

/-- Fuel-driven glob matching of a pattern against a file name, modelling the
host linter's treatment of the override `files` patterns: `*` matches any
(possibly empty) run of characters and every other character matches itself.
The fuel argument makes the recursion structural; each step consumes at least
one character of the pattern or of the name. -/
def globMatchAux : Nat → List Char → List Char → Bool
  | 0, _, _ => false
  | _ + 1, [], [] => true
  | _ + 1, [], _ :: _ => false
  | fuel + 1, p :: ps, s =>
    if p == '*' then
      match s with
      | [] => globMatchAux fuel ps []
      | _ :: cs => globMatchAux fuel ps s || globMatchAux fuel (p :: ps) cs
    else
      match s with
      | [] => false
      | c :: cs => p == c && globMatchAux fuel ps cs

/-- Glob matching on strings, with enough fuel for the whole match. -/
def globMatch (pat fname : String) : Bool :=
  globMatchAux (pat.data.length + fname.data.length + 1) pat.data fname.data

/-- Whether an override record applies to a file name: one of its glob
patterns matches the name. -/
def overrideApplies (o : OverrideRecord) (fname : String) : Bool :=
  o.files.any (fun pat => globMatch pat fname)

/-- Whether the override records of a configuration route a file name to the
configuration named `target`: some applicable override extends `target`. -/
def resolvesTo (cfg : ConfigRecord) (fname target : String) : Bool :=
  cfg.overrides.any
    (fun o => overrideApplies o fname && o.extendsList.contains target)

theorem lookup_append {β : Type} (l₁ l₂ : List (String × β)) (a : String) :
    (l₁ ++ l₂).lookup a =
      match l₁.lookup a with
      | some v => some v
      | none => l₂.lookup a := by
  induction l₁ with
  | nil => rfl
  | cons p rest ih =>
    obtain ⟨k, v⟩ := p
    simp only [List.cons_append, List.lookup]
    cases a == k <;> simp [ih]

theorem lookup_eq_none_of_not_mem {β : Type} (l : List (String × β))
    (a : String) (h : a ∉ l.map Prod.fst) : l.lookup a = none := by
  induction l with
  | nil => rfl
  | cons p rest ih =>
    obtain ⟨k, v⟩ := p
    simp only [List.map_cons, List.mem_cons] at h
    push_neg at h
    simp only [List.lookup]
    have hbeq : (a == k) = false := beq_eq_false_iff_ne.mpr h.1
    rw [hbeq]
    exact ih h.2

theorem lookup_isSome_of_mem {β : Type} (l : List (String × β)) (a : String)
    (h : a ∈ l.map Prod.fst) : ∃ v, l.lookup a = some v := by
  induction l with
  | nil => simp at h
  | cons p rest ih =>
    obtain ⟨k, v⟩ := p
    simp only [List.lookup]
    cases hbeq : a == k with
    | true => exact ⟨v, rfl⟩
    | false =>
      apply ih
      simp only [List.map_cons, List.mem_cons] at h
      rcases h with h | h
      · exact absurd (beq_iff_eq.mpr h) (by simp [hbeq])
      · exact h

theorem lookup_filter {β : Type} (l : List (String × β)) (q : String → Bool)
    (a : String) (ha : q a = true) :
    (l.filter (fun p => q p.1)).lookup a = l.lookup a := by
  induction l with
  | nil => rfl
  | cons p rest ih =>
    obtain ⟨k, v⟩ := p
    by_cases hk : a = k
    · subst hk
      simp only [List.filter, ha, List.lookup, beq_self_eq_true]
    · have hbeq : (a == k) = false := beq_eq_false_iff_ne.mpr hk
      cases hq : q k <;> simp [List.filter, hq, List.lookup, hbeq, ih]

theorem lookup_mergeRules {β : Type} (base over : List (String × β))
    (a : String) :
    (mergeRules base over).lookup a =
      match over.lookup a with
      | some v => some v
      | none => base.lookup a := by
  unfold mergeRules
  rw [lookup_append]
  cases h : over.lookup a with
  | some v => rfl
  | none =>
    exact lookup_filter base (fun k => (over.lookup k).isNone) a
      (by show (over.lookup a).isNone = true; rw [h]; rfl)

theorem find?_key_eq_none_iff {β : Type} (l : List (String × β))
    (a : String) :
    l.find? (fun p => p.1 == a) = none ↔ a ∉ l.map Prod.fst := by
  rw [List.find?_eq_none]
  constructor
  · intro h hm
    rcases List.mem_map.mp hm with ⟨q, hq, rfl⟩
    exact h q hq (by simp)
  · intro h q hq hbeq
    exact h (List.mem_map.mpr ⟨q, hq, beq_iff_eq.mp hbeq⟩)

/-- Claim C1: contrary to the claim, not every environment record keeps its
global declarations under a `globals` mapping: `djblets` and `reviewboard`
carry their single global directly on the record, so `envGlobals` finds no
globals mapping for them, while the other three environments do have one.
This theorem evaluates the registry at the failing inputs. -/
theorem environments_globals_shape :
    environments.lookup "djblets" = some [("Djblets", Json.bool false)] ∧
    envGlobals [("Djblets", Json.bool false)] = none ∧
    environments.lookup "reviewboard" = some [("RB", Json.bool false)] ∧
    envGlobals [("RB", Json.bool false)] = none ∧
    envGlobals ((environments.lookup "backbone").getD []) =
      some [("Backbone", Json.bool false), ("_", Json.bool false)] ∧
    envGlobals ((environments.lookup "django").getD []) =
      some [("django", Json.bool false), ("gettext", Json.bool false),
        ("gettext_noop", Json.bool false), ("interpolate", Json.bool false),
        ("ngettext", Json.bool false), ("npgettext", Json.bool false),
        ("pgettext", Json.bool false)] ∧
    envGlobals ((environments.lookup "jasmine-suites").getD []) =
      some [("suite", Json.bool false)] :=
  ⟨rfl, rfl, rfl, rfl, rfl, rfl, rfl⟩

/-- Claim C2, counterexample: the file name `DataTests.jsx` matches the glob
`*Tests.*`, yet the override records of the recommended configuration do not
resolve it to the jasmine configuration, and no override record carries the
literal pattern `*Tests.*`. -/
theorem tests_glob_counterexample :
    globMatch "*Tests.*" "DataTests.jsx" = true ∧
    resolvesTo recommendedConfig "DataTests.jsx" "plugin:@beanbag/jasmine" =
      false ∧
    recommendedConfig.overrides.all
      (fun o => !(o.files.contains "*Tests.*")) = true := by
  refine ⟨by decide, by decide, by decide⟩

/-- Claim C2, amended: the recommended configuration contains an override
record pairing the patterns `*Tests.es6.js`, `*Tests.js` and `*Tests.ts` with
the jasmine configuration, and every file name matching one of those three
patterns resolves to the jasmine configuration. -/
theorem tests_override_resolves_jasmine (fname : String)
    (h : globMatch "*Tests.es6.js" fname = true ∨
         globMatch "*Tests.js" fname = true ∨
         globMatch "*Tests.ts" fname = true) :
    resolvesTo recommendedConfig fname "plugin:@beanbag/jasmine" = true ∧
    recommendedConfig.overrides.get? 2 =
      some ⟨["*Tests.es6.js", "*Tests.js", "*Tests.ts"],
        ["plugin:@beanbag/jasmine"], []⟩ := by
  refine ⟨?_, rfl⟩
  unfold resolvesTo
  rw [List.any_eq_true]
  refine ⟨⟨["*Tests.es6.js", "*Tests.js", "*Tests.ts"],
    ["plugin:@beanbag/jasmine"], []⟩,
    List.Mem.tail _ (List.Mem.tail _ (List.Mem.head _)), ?_⟩
  rcases h with h | h | h <;> simp [overrideApplies, h, List.contains]

/-- Claim C2, witness for the amended theorem at the file name
`fooTests.js`. -/
theorem tests_override_resolves_jasmine_witness :
    (globMatch "*Tests.es6.js" "fooTests.js" = true ∨
     globMatch "*Tests.js" "fooTests.js" = true ∨
     globMatch "*Tests.ts" "fooTests.js" = true) ∧
    resolvesTo recommendedConfig "fooTests.js" "plugin:@beanbag/jasmine" =
      true :=
  ⟨Or.inr (Or.inl (by decide)),
   (tests_override_resolves_jasmine "fooTests.js"
     (Or.inr (Or.inl (by decide)))).1⟩

/-- Claim C3: merging the es6 rule map over the es5 rule map yields pairwise
distinct rule identifiers (so no identifier ends up with two conflicting
severities), the merged setting of every identifier the es6 configuration
explicitly redeclares is the es6 setting, and the merged setting of every
other identifier is the es5 setting. -/
theorem es6_merge_overrides_only_redeclared :
    ((mergeRules es5Config.rules es6Config.rules).map Prod.fst).Nodup ∧
    (∀ id : String, id ∈ es6Config.rules.map Prod.fst →
      (mergeRules es5Config.rules es6Config.rules).lookup id =
        es6Config.rules.lookup id) ∧
    (∀ id : String, id ∉ es6Config.rules.map Prod.fst →
      (mergeRules es5Config.rules es6Config.rules).lookup id =
        es5Config.rules.lookup id) := by
  refine ⟨by decide, ?_, ?_⟩
  · intro id hmem
    rcases lookup_isSome_of_mem _ _ hmem with ⟨v, hv⟩
    rw [lookup_mergeRules, hv]
  · intro id hmem
    rw [lookup_mergeRules, lookup_eq_none_of_not_mem _ _ hmem]

/-- Claim C3, witness: `quotes` is redeclared by es6 and merges to the es6
setting; `no-tabs` is not redeclared and merges to the es5 setting. -/
theorem es6_merge_witness :
    ("quotes" ∈ es6Config.rules.map Prod.fst) ∧
    ("no-tabs" ∉ es6Config.rules.map Prod.fst) ∧
    (mergeRules es5Config.rules es6Config.rules).lookup "quotes" =
      es6Config.rules.lookup "quotes" ∧
    (mergeRules es5Config.rules es6Config.rules).lookup "no-tabs" =
      es5Config.rules.lookup "no-tabs" :=
  ⟨by decide, by decide,
   es6_merge_overrides_only_redeclared.2.1 "quotes" (by decide),
   es6_merge_overrides_only_redeclared.2.2 "no-tabs" (by decide)⟩

/-- Claim C4: in every configuration of the registry, the severity component
of every registered rule setting (the bare value, or the first element of the
setting array) is one of `off`, `warn`, `error`. -/
theorem all_severities_valid :
    (configsList.map Prod.snd).all
      (fun cfg => cfg.rules.all
        (fun r => [some "off", some "warn", some "error"].contains
          (ruleSeverity r.2))) = true := by
  decide

/-- Claim C5: looking up the environment `backbone` returns the record whose
globals mapping is exactly `Backbone` and `_`, both tagged read-only. -/
theorem backbone_globals_exact :
    getEnvironment "backbone" =
      Except.ok [("globals",
        Json.obj [("Backbone", Json.bool false), ("_", Json.bool false)])] ∧
    envGlobals [("globals",
        Json.obj [("Backbone", Json.bool false), ("_", Json.bool false)])] =
      some [("Backbone", Json.bool false), ("_", Json.bool false)] ∧
    [("Backbone", Json.bool false), ("_", Json.bool false)].all
      (fun p => isReadOnly p.2) = true :=
  ⟨rfl, rfl, rfl⟩

/-- Claim C6: `getConfiguration name` fails with the unknown-name error
exactly when `name` is absent from `listConfigurations`, and for every
registered name the lookup succeeds with a configuration record. -/
theorem getConfiguration_unknown_name_iff (name : String) :
    (getConfiguration name = Except.error NotFoundError.unknownName ↔
      name ∉ listConfigurations) ∧
    (name ∈ listConfigurations →
      ∃ c, getConfiguration name = Except.ok c) := by
  constructor
  · unfold getConfiguration listConfigurations
    cases h : configsList.find? (fun p => p.1 == name) with
    | none =>
      exact iff_of_true rfl ((find?_key_eq_none_iff configsList name).mp h)
    | some q =>
      refine iff_of_false (fun hc => Except.noConfusion hc) (not_not_intro ?_)
      have hq := List.find?_some h
      exact List.mem_map.mpr ⟨q, List.mem_of_find?_eq_some h, beq_iff_eq.mp hq⟩
  · intro hmem
    cases h : configsList.find? (fun p => p.1 == name) with
    | none =>
      exact absurd hmem ((find?_key_eq_none_iff configsList name).mp h)
    | some q =>
      exact ⟨q.2, by unfold getConfiguration; rw [h]⟩

/-- Claim C6, witness: `es5` is registered and its lookup succeeds, while the
general theorem also gives the failure of `getConfiguration "unknown-xyz"`. -/
theorem getConfiguration_witness :
    "es5" ∈ listConfigurations ∧
    ∃ c, getConfiguration "es5" = Except.ok c :=
  ⟨by decide, (getConfiguration_unknown_name_iff "es5").2 (by decide)⟩

/-- Claim C7: the rule identifiers within each configuration of the registry
are pairwise distinct, and the configuration and environment names of the
registry are pairwise distinct.  The embedded registry is immutable by
construction, so these invariants cannot change after construction. -/
theorem rule_ids_and_names_unique :
    (es5Config.rules.map Prod.fst).Nodup ∧
    (es6Config.rules.map Prod.fst).Nodup ∧
    (typescriptConfig.rules.map Prod.fst).Nodup ∧
    (jasmineTestsConfig.rules.map Prod.fst).Nodup ∧
    (recommendedConfig.rules.map Prod.fst).Nodup ∧
    listConfigurations.Nodup ∧
    listEnvironments.Nodup := by
  decide

/-- Claim C8: the ignore pattern of `lines-around-comment` in the es5
configuration, the comment pattern of `no-fallthrough` in the es5
configuration, and the ignore pattern of
`@typescript-eslint/lines-around-comment` in the typescript configuration are
all the single fall-through marker pattern. -/
theorem fallthrough_patterns_agree :
    ruleOptionStr es5Config "lines-around-comment" "ignorePattern" =
      some noFallThroughPattern ∧
    ruleOptionStr es5Config "no-fallthrough" "commentPattern" =
      some noFallThroughPattern ∧
    ruleOptionStr typescriptConfig "@typescript-eslint/lines-around-comment"
      "ignorePattern" = some noFallThroughPattern ∧
    noFallThroughPattern = "[Ff]alls?\\s?through" :=
  ⟨rfl, rfl, rfl, rfl⟩

/-- Claim C9: the typescript configuration re-declares the base
`lines-around-comment` rule as `off` while enabling the TypeScript-specific
variant at `warn`, so after merging the typescript rules over the es5 rules at
most one of the two variants is active. -/
theorem typescript_lines_around_comment_exclusive :
    configRuleSeverity typescriptConfig "lines-around-comment" = some "off" ∧
    configRuleSeverity typescriptConfig
      "@typescript-eslint/lines-around-comment" = some "warn" ∧
    mergedRuleSeverity es5Config.rules typescriptConfig.rules
      "lines-around-comment" = some "off" ∧
    mergedRuleSeverity es5Config.rules typescriptConfig.rules
      "@typescript-eslint/lines-around-comment" = some "warn" ∧
    ¬(severityActive (mergedRuleSeverity es5Config.rules
        typescriptConfig.rules "lines-around-comment") = true ∧
      severityActive (mergedRuleSeverity es5Config.rules
        typescriptConfig.rules
        "@typescript-eslint/lines-around-comment") = true) := by
  refine ⟨rfl, rfl, by decide, by decide, by decide⟩

/-- Claim C10: every permission tag declared by any environment record (under
its globals mapping, or directly on the record as `djblets` and `reviewboard`
do) is read-only, while the only writable global of the package,
`$testsScratch`, is declared by the jasmine configuration. -/
theorem environment_globals_all_readonly :
    (environments.map Prod.snd).all
      (fun record => (permValues record).all isReadOnly) = true ∧
    (jasmineTestsConfig.globals.lookup "$testsScratch").map isWritable =
      some true := by
  refine ⟨by decide, rfl⟩
